import Mathlib

/-!
Verification of the discussion-portal core: a shallow embedding of the
thread/comment controllers (src/controllers/threadController.js,
src/controllers/commentController.js) and the Post model
(src/models/Post.js).

Thread metadata rows (PostgreSQL `threads` table) and content documents
(MongoDB `posts` collection) are modelled as lists inside a `DB` record.
Each controller action is a function `DB → ... → DB × Except Err α`:
the returned `DB` is the persistent state after the call, even when the
call ends in an error (writes that happened before the failing step are
kept, matching the two independently-failing stores).  Store failures
that the claims quantify over (the MongoDB write inside `createThread`,
the reply-count UPDATE inside `createComment`) are injected through
explicit boolean parameters.
-/

namespace DiscussionPortal

/-- `AppError(message, statusCode)` from src/middleware/errorHandler.js,
plus a constructor for raw store errors (pg / MongoDB failures that are
rethrown unwrapped). -/
inductive Err where
  | appError (message : String) (statusCode : Nat)
  | storeError (message : String)
deriving Repr, DecidableEq

/-- `req.user` as attached by the auth middleware: id, username, role. -/
structure ReqUser where
  id : String
  username : String
  role : String
deriving Repr, DecidableEq

/-- A row of the PostgreSQL `categories` table (the fields `createThread`
reads: id and status). -/
structure CategoryRow where
  id : Nat
  status : String
deriving Repr, DecidableEq

/-- A row of the PostgreSQL `threads` table (the fields the controllers
touch). Timestamps are modelled as `Nat`. -/
structure ThreadRow where
  id : Nat
  title : String
  slug : String
  categoryId : Nat
  authorId : String
  isPinned : Bool
  isLocked : Bool
  viewCount : Nat
  replyCount : Nat
  lastReplyAt : Option Nat
  lastReplyBy : Option String
deriving Repr, DecidableEq

/-- CommentSchema from src/models/Post.js.  `cid` embeds the mongoose
`_id` (document-scoped unique id).  `upvotes` is a JS number, embedded
as `Int`; `upvotedBy` is the array of user ids in insertion order. -/
structure Comment where
  cid : Nat
  authorId : String
  authorUsername : String
  content : String
  parentCommentId : Option Nat
  isEdited : Bool
  editedAt : Option Nat
  isDeleted : Bool
  deletedAt : Option Nat
  upvotes : Int
  upvotedBy : List String
deriving Repr, DecidableEq

/-- The `originalPost` subdocument of PostSchema. -/
structure OriginalPost where
  authorId : String
  authorUsername : String
  content : String
  isEdited : Bool
  editedAt : Option Nat
  upvotes : Int
  upvotedBy : List String
deriving Repr, DecidableEq

/-- PostSchema from src/models/Post.js: one content document per thread. -/
structure Post where
  threadId : Nat
  originalPost : OriginalPost
  comments : List Comment
  tags : List String
deriving Repr, DecidableEq

/-- The two stores: `categories`/`threads` are PostgreSQL tables,
`posts` is the MongoDB collection. -/
structure DB where
  categories : List CategoryRow
  threads : List ThreadRow
  posts : List Post
deriving Repr, DecidableEq

/-- The `commentCount` virtual of PostSchema:
`this.comments.filter(c => !c.isDeleted).length`. -/
def commentCount (p : Post) : Nat :=
  (p.comments.filter (fun c => !c.isDeleted)).length

/-- `PostSchema.methods.toggleUpvote` (src/models/Post.js lines 246-256):
`indexOf` + `splice(idx, 1)` removes the first occurrence of `userId`
and decrements; otherwise `push` appends and increments. -/
def toggleUpvote (op : OriginalPost) (userId : String) : OriginalPost :=
  if userId ∈ op.upvotedBy then
    { op with upvotedBy := op.upvotedBy.erase userId, upvotes := op.upvotes - 1 }
  else
    { op with upvotedBy := op.upvotedBy ++ [userId], upvotes := op.upvotes + 1 }

/-- The comment-level toggle from `upvoteComment`
(src/controllers/commentController.js lines 160-167): same
indexOf/splice/push logic on the comment's vote fields. -/
def toggleCommentUpvote (c : Comment) (userId : String) : Comment :=
  if userId ∈ c.upvotedBy then
    { c with upvotedBy := c.upvotedBy.erase userId, upvotes := c.upvotes - 1 }
  else
    { c with upvotedBy := c.upvotedBy ++ [userId], upvotes := c.upvotes + 1 }

/-- Whether `ch` matches JS `\w` (the characters `slugify` keeps besides
whitespace and hyphens). -/
def isWordChar (ch : Char) : Bool :=
  ch.isAlphanum || ch == '_'

/-- Whether `ch` matches JS `[\s_-]` (collapsed to a single hyphen by
`slugify`). -/
def isSepChar (ch : Char) : Bool :=
  ch.isWhitespace || ch == '_' || ch == '-'

/-- One left-to-right pass replacing each run of separator characters by
a single hyphen (the `replace(/[\s_-]+/g, '-')` step); the flag records
whether the previous character was part of a separator run. -/
def collapseSeps : Bool → List Char → List Char
  | _, [] => []
  | prevSep, ch :: rest =>
    if isSepChar ch then
      if prevSep then collapseSeps true rest
      else '-' :: collapseSeps true rest
    else ch :: collapseSeps false rest

/-- `slugify` from src/utils/helpers.js.  The `Math.random()` suffix is
nondeterministic, so it is an explicit argument. -/
def slugify (text : String) (suffix : String) : String :=
  let kept := (text.toLower.trim.data.filter
    (fun ch => isWordChar ch || ch.isWhitespace || ch == '-'))
  let collapsed := collapseSeps false kept
  let trimmed := ((collapsed.dropWhile (fun ch => ch == '-')).reverse.dropWhile
    (fun ch => ch == '-')).reverse
  String.mk trimmed ++ "-" ++ suffix

/-- `['moderator', 'admin'].includes(req.user.role)`. -/
def isModRole (u : ReqUser) : Bool :=
  u.role == "moderator" || u.role == "admin"

/-- `post.comments.id(commentId)`: mongoose lookup of an embedded
subdocument by its `_id`. -/
def findCommentById (p : Post) (commentId : Nat) : Option Comment :=
  p.comments.find? (fun c => c.cid == commentId)

/-- The fresh comment pushed by `createComment`
(src/controllers/commentController.js lines 36-41), with the schema
defaults from CommentSchema; the mongoose-generated `_id` is embedded as
the next document-scoped counter value. -/
def mkNewComment (post : Post) (u : ReqUser) (content : String)
    (parentCommentId : Option Nat) : Comment :=
  { cid := post.comments.length, authorId := u.id, authorUsername := u.username,
    content := content, parentCommentId := parentCommentId,
    isEdited := false, editedAt := none, isDeleted := false, deletedAt := none,
    upvotes := 0, upvotedBy := [] }

/-- `createThread` (src/controllers/threadController.js lines 126-178).
`newThreadId` embeds the id generated by the pg INSERT, `slugSuffix` the
random slug suffix, and `contentWriteFails` injects a failure of the
`Post.create` MongoDB write.  The pg INSERT runs inside a transaction:
it only becomes visible in `threads` at COMMIT, and the catch branch
ROLLBACKs it, best-effort deletes any content document for the new id
(`Post.deleteOne`), and rethrows the original error. -/
def createThread (db : DB) (u : ReqUser) (title content : String) (categoryId : Nat)
    (tags : List String) (newThreadId : Nat) (slugSuffix : String)
    (contentWriteFails : Bool) : DB × Except Err ThreadRow :=
  match db.categories.find? (fun c => c.id == categoryId && c.status == "active") with
  | none => (db, .error (.appError "Category not found or inactive." 404))
  | some _ =>
    let thread : ThreadRow :=
      { id := newThreadId, title := title, slug := slugify title slugSuffix,
        categoryId := categoryId, authorId := u.id,
        isPinned := false, isLocked := false, viewCount := 0, replyCount := 0,
        lastReplyAt := none, lastReplyBy := none }
    if contentWriteFails then
      ({ db with posts := db.posts.filter (fun p => !(p.threadId == newThreadId)) },
        .error (.storeError "MongoDB write failed"))
    else
      let post : Post :=
        { threadId := newThreadId,
          originalPost :=
            { authorId := u.id, authorUsername := u.username, content := content,
              isEdited := false, editedAt := none, upvotes := 0, upvotedBy := [] },
          comments := [], tags := tags }
      ({ db with threads := db.threads ++ [thread], posts := db.posts ++ [post] },
        .ok thread)

/-- JS truthiness of an optional request-body string (`undefined` and
`''` are falsy). -/
def truthy : Option String → Bool
  | none => false
  | some s => !(s == "")

/-- `updateThread` (src/controllers/threadController.js lines 181-227):
checks ownership against the pg row, updates the title in pg when given,
then `findOneAndUpdate`s the content document; a missing document yields
a `null` post in the success response. -/
def updateThread (db : DB) (id : Nat) (u : ReqUser)
    (title content : Option String) (tags : Option (List String)) (now : Nat) :
    DB × Except Err (ThreadRow × Option Post) :=
  match db.threads.find? (fun t => t.id == id) with
  | none => (db, .error (.appError "Thread not found." 404))
  | some thread =>
    if !(thread.authorId == u.id) && !(isModRole u) then
      (db, .error (.appError "Permission denied." 403))
    else
      let db1 :=
        if truthy title then
          { db with threads := db.threads.map (fun t =>
              if t.id == id then { t with title := title.getD t.title } else t) }
        else db
      let applySet : Post → Post := fun p =>
        let p1 :=
          if truthy content then
            { p with originalPost :=
                { p.originalPost with
                  content := content.getD p.originalPost.content
                  isEdited := true
                  editedAt := some now } }
          else p
        match tags with
        | some ts => { p1 with tags := ts }
        | none => p1
      let respThread := { thread with title := if truthy title then title.getD thread.title else thread.title }
      match db1.posts.find? (fun p => p.threadId == id) with
      | none => (db1, .ok (respThread, none))
      | some post =>
        let post' := applySet post
        (({ db1 with posts := db1.posts.map (fun p =>
            if p.threadId == id then post' else p) }), .ok (respThread, some post'))

/-- `createComment` (src/controllers/commentController.js lines 13-67):
pg existence/lock check, optional parent-existence check against the
content document, `findOneAndUpdate` push of the new comment, then the
reply-count/last-reply UPDATE in pg.  `counterUpdateFails` injects a
failure of that UPDATE; the already-pushed comment stays written. -/
def createComment (db : DB) (threadId : Nat) (u : ReqUser) (content : String)
    (parentCommentId : Option Nat) (now : Nat) (counterUpdateFails : Bool) :
    DB × Except Err Comment :=
  match db.threads.find? (fun t => t.id == threadId) with
  | none => (db, .error (.appError "Thread not found." 404))
  | some thread =>
    if thread.isLocked then
      (db, .error (.appError "Thread is locked. No new replies allowed." 403))
    else
      let parentOk :=
        match parentCommentId with
        | none => true
        | some pid =>
          (db.posts.find? (fun p =>
            p.threadId == threadId && p.comments.any (fun c => c.cid == pid))).isSome
      if !parentOk then (db, .error (.appError "Parent comment not found." 404))
      else
        match db.posts.find? (fun p => p.threadId == threadId) with
        | none => (db, .error (.appError "Thread content not found." 404))
        | some post =>
          let newComment := mkNewComment post u content parentCommentId
          let post' := { post with comments := post.comments ++ [newComment] }
          let db1 := { db with posts := db.posts.map (fun p =>
            if p.threadId == threadId then post' else p) }
          if counterUpdateFails then
            (db1, .error (.storeError "reply_count update failed"))
          else
            let db2 := { db1 with threads := db1.threads.map (fun t =>
              if t.id == threadId then
                { t with
                  replyCount := t.replyCount + 1
                  lastReplyAt := some now
                  lastReplyBy := some u.id }
              else t) }
            (db2, .ok newComment)

/-- `updateComment` (src/controllers/commentController.js lines 70-95):
404 when the document or the comment is missing or tombstoned, 403
unless owner or moderator/admin, else sets body and edit flags and
saves. -/
def updateComment (db : DB) (threadId commentId : Nat) (u : ReqUser)
    (content : String) (now : Nat) : DB × Except Err Comment :=
  match db.posts.find? (fun p => p.threadId == threadId) with
  | none => (db, .error (.appError "Thread not found." 404))
  | some post =>
    match findCommentById post commentId with
    | none => (db, .error (.appError "Comment not found." 404))
    | some comment =>
      if comment.isDeleted then (db, .error (.appError "Comment not found." 404))
      else if !(comment.authorId == u.id) && !(isModRole u) then
        (db, .error (.appError "Permission denied." 403))
      else
        let comment' := { comment with content := content, isEdited := true, editedAt := some now }
        let post' := { post with comments := post.comments.map (fun c =>
          if c.cid == commentId then comment' else c) }
        (({ db with posts := db.posts.map (fun p =>
            if p.threadId == threadId then post' else p) }), .ok comment')

/-- `deleteComment` (src/controllers/commentController.js lines 98-128):
soft delete — 404 when missing or already tombstoned, 403 unless owner
or moderator/admin, else overwrites the body with the placeholder, sets
the tombstone, saves, and decrements pg `reply_count` with
`GREATEST(reply_count - 1, 0)` (truncated subtraction). -/
def deleteComment (db : DB) (threadId commentId : Nat) (u : ReqUser) (now : Nat) :
    DB × Except Err Unit :=
  match db.posts.find? (fun p => p.threadId == threadId) with
  | none => (db, .error (.appError "Thread not found." 404))
  | some post =>
    match findCommentById post commentId with
    | none => (db, .error (.appError "Comment not found." 404))
    | some comment =>
      if comment.isDeleted then (db, .error (.appError "Comment not found." 404))
      else if !(comment.authorId == u.id) && !(isModRole u) then
        (db, .error (.appError "Permission denied." 403))
      else
        let comment' : Comment := { comment with
          isDeleted := true
          deletedAt := some now
          content := "[deleted]" }
        let post' : Post := { post with comments := post.comments.map (fun c =>
          if c.cid == commentId then comment' else c) }
        let db1 : DB := { db with posts := db.posts.map (fun p =>
          if p.threadId == threadId then post' else p) }
        let db2 : DB := { db1 with threads := db1.threads.map (fun t =>
          if t.id == threadId then { t with replyCount := t.replyCount - 1 } else t) }
        (db2, .ok ())

/-- `Post.findOne({ threadId })`: the read step shared by the vote
handlers (src/controllers/commentController.js lines 135, 153). -/
def findPostByThread (db : DB) (threadId : Nat) : Option Post :=
  db.posts.find? (fun p => p.threadId == threadId)

/-- The write step of `upvoteThread`: `post.toggleUpvote(userId)`
mutates the in-memory snapshot and `save()`s the whole document back
(src/models/Post.js lines 246-256). -/
def saveToggledPost (db : DB) (threadId : Nat) (snapshot : Post) (userId : String) : DB :=
  let post' := { snapshot with originalPost := toggleUpvote snapshot.originalPost userId }
  { db with posts := db.posts.map (fun p => if p.threadId == threadId then post' else p) }

/-- `upvoteThread` (src/controllers/commentController.js lines 131-146):
`findOne`, then toggle-and-save, then respond with the new count and
membership. -/
def upvoteThread (db : DB) (threadId : Nat) (userId : String) :
    DB × Except Err (Int × Bool) :=
  match findPostByThread db threadId with
  | none => (db, .error (.appError "Thread not found." 404))
  | some post =>
    let db' := saveToggledPost db threadId post userId
    let op := toggleUpvote post.originalPost userId
    (db', .ok (op.upvotes, op.upvotedBy.contains userId))

/-- The schedule in which two `upvoteThread` requests by `a` and `b`
both execute their `findOne` read before either `save` write reaches
the store: both snapshots come from `db`, then the two saves land in
order. -/
def upvoteThreadInterleaved (db : DB) (threadId : Nat) (a b : String) : Option DB :=
  match findPostByThread db threadId, findPostByThread db threadId with
  | some pa, some pb =>
    some (saveToggledPost (saveToggledPost db threadId pa a) threadId pb b)
  | _, _ => none

/-- The count/voter-set invariant of §4.4 for the original post:
the stored upvote count equals the size of the voter list. -/
def voteInvariantOP (op : OriginalPost) : Prop :=
  op.upvotes = (op.upvotedBy.length : Int)

/-- The count/voter-set invariant for a comment. -/
def voteInvariantC (c : Comment) : Prop :=
  c.upvotes = (c.upvotedBy.length : Int)

def opW : OriginalPost :=
  { authorId := "u1", authorUsername := "alice", content := "hello world",
    isEdited := false, editedAt := none, upvotes := 1, upvotedBy := ["u2"] }

def cW : Comment :=
  { cid := 0, authorId := "u1", authorUsername := "alice", content := "hi",
    parentCommentId := none, isEdited := false, editedAt := none,
    isDeleted := false, deletedAt := none, upvotes := 0, upvotedBy := [] }

def userW : ReqUser := { id := "u1", username := "alice", role := "user" }

def modW : ReqUser := { id := "m1", username := "mona", role := "moderator" }

def rowW : ThreadRow :=
  { id := 1, title := "Hello World", slug := "hello-world-ab12", categoryId := 1,
    authorId := "u1", isPinned := false, isLocked := false, viewCount := 0,
    replyCount := 0, lastReplyAt := none, lastReplyBy := none }

def postW : Post :=
  { threadId := 1,
    originalPost :=
      { authorId := "u1", authorUsername := "alice", content := "first post body",
        isEdited := false, editedAt := none, upvotes := 0, upvotedBy := [] },
    comments := [], tags := [] }

def dbW : DB := { categories := [⟨1, "active"⟩], threads := [rowW], posts := [postW] }

def rowLocked : ThreadRow := { rowW with isLocked := true }

def dbLocked : DB := { categories := [⟨1, "active"⟩], threads := [rowLocked], posts := [postW] }

def rowOther : ThreadRow := { rowW with id := 7 }

def dbFresh : DB := { categories := [⟨1, "active"⟩], threads := [rowOther], posts := [] }

def dbNoDoc : DB := { categories := [⟨1, "active"⟩], threads := [rowW], posts := [] }

def cDeleted : Comment :=
  { cid := 0, authorId := "u1", authorUsername := "alice", content := "[deleted]",
    parentCommentId := none, isEdited := false, editedAt := none,
    isDeleted := true, deletedAt := some 3, upvotes := 0, upvotedBy := [] }

def postTomb : Post := { postW with comments := [cDeleted] }

def dbTomb : DB := { categories := [⟨1, "active"⟩], threads := [rowW], posts := [postTomb] }

/-- The tombstoned form of a comment after the soft delete in
deleteComment: body replaced by the placeholder, delete flags set. -/
def tombstone (comment : Comment) (now : Nat) : Comment :=
  { comment with
    isDeleted := true
    deletedAt := some now
    content := "[deleted]" }

/-- The saved document after deleteComment tombstones `commentId`. -/
def tombstonedPost (post : Post) (commentId : Nat) (comment : Comment) (now : Nat) : Post :=
  { post with comments := post.comments.map (fun c =>
    if c.cid == commentId then tombstone comment now else c) }

def cLive : Comment :=
  { cid := 0, authorId := "u1", authorUsername := "alice", content := "hi there",
    parentCommentId := none, isEdited := false, editedAt := none,
    isDeleted := false, deletedAt := none, upvotes := 0, upvotedBy := [] }

def postLive : Post := { postW with comments := [cLive] }

def dbLive : DB := { categories := [⟨1, "active"⟩], threads := [rowW], posts := [postLive] }

/-- One comment-lifecycle request against a fixed thread: an addComment
(createComment) or a softDeleteComment (deleteComment) by some user. -/
inductive CommentOp where
  | add (u : ReqUser) (content : String) (parentCommentId : Option Nat) (now : Nat)
  | del (commentId : Nat) (u : ReqUser) (now : Nat)
deriving Repr, DecidableEq

def CommentOp.isAdd : CommentOp → Bool
  | .add _ _ _ _ => true
  | .del _ _ _ => false

def CommentOp.isDel : CommentOp → Bool
  | .add _ _ _ _ => false
  | .del _ _ _ => true

/-- Run one comment-lifecycle request (no induced faults); `none` when
the controller answered with an error. -/
def applyOp (threadId : Nat) (db : DB) : CommentOp → Option DB
  | .add u content pid now =>
    match createComment db threadId u content pid now false with
    | (db1, .ok _) => some db1
    | (_, .error _) => none
  | .del commentId u now =>
    match deleteComment db threadId commentId u now with
    | (db1, .ok _) => some db1
    | (_, .error _) => none

/-- Run a sequence of comment-lifecycle requests; `none` as soon as one
fails. -/
def runOps (threadId : Nat) : DB → List CommentOp → Option DB
  | db, [] => some db
  | db, op :: rest =>
    match applyOp threadId db op with
    | some db1 => runOps threadId db1 rest
    | none => none

/-- The single-thread state the C2 sequences run in: one metadata row
and one content document for `threadId`, the thread unlocked, comment
ids laid out as by successive pushes (position = id), and both the
stored replyCount and the live non-deleted comment count equal to n. -/
def CState (db : DB) (threadId : Nat) (n : Nat) : Prop :=
  ∃ row post, db.threads = [row] ∧ db.posts = [post] ∧
    row.id = threadId ∧ row.isLocked = false ∧ post.threadId = threadId ∧
    row.replyCount = n ∧
    post.comments.map (fun c => c.cid) = List.range post.comments.length ∧
    commentCount post = n

theorem length_toggle_mem {l : List String} {u : String} (h : u ∈ l) :
    ((l.erase u).length : Int) = (l.length : Int) - 1 := by
  have h1 : (l.erase u).length = l.length - 1 := List.length_erase_of_mem h
  have h2 : 0 < l.length := List.length_pos_of_mem h
  omega

/-- C3: every toggle keeps count = voter-set size, for posts and comments. -/
theorem toggle_preserves_voteInvariant (op : OriginalPost) (c : Comment) (u v : String)
    (hop : voteInvariantOP op) (hc : voteInvariantC c) :
    voteInvariantOP (toggleUpvote op u) ∧ voteInvariantC (toggleCommentUpvote c v) := by
  constructor
  · by_cases h : u ∈ op.upvotedBy
    · simp only [voteInvariantOP, toggleUpvote, if_pos h] at *
      rw [length_toggle_mem h]
      omega
    · simp only [voteInvariantOP, toggleUpvote, if_neg h, List.length_append,
        List.length_singleton] at *
      push_cast
      omega
  · by_cases h : v ∈ c.upvotedBy
    · simp only [voteInvariantC, toggleCommentUpvote, if_pos h] at *
      rw [length_toggle_mem h]
      omega
    · simp only [voteInvariantC, toggleCommentUpvote, if_neg h, List.length_append,
        List.length_singleton] at *
      push_cast
      omega

/-- Witness for C3 at a concrete post and comment. -/
theorem toggle_preserves_voteInvariant_witness :
    voteInvariantOP (toggleUpvote opW "u3") ∧ voteInvariantC (toggleCommentUpvote cW "u3") :=
  toggle_preserves_voteInvariant opW cW "u3" "u3"
    (by simp only [voteInvariantOP]; decide) (by simp only [voteInvariantC]; decide)

/-- C4: toggling twice with the same voter restores the upvote count and
the voter-set membership, for posts and comments alike (under the data
model's voter-set discipline: no duplicate entries in `upvotedBy`). -/
theorem toggle_twice_restores (op : OriginalPost) (c : Comment) (u v : String)
    (hop : op.upvotedBy.Nodup) (hc : c.upvotedBy.Nodup) :
    ((toggleUpvote (toggleUpvote op u) u).upvotes = op.upvotes ∧
      ∀ w, w ∈ (toggleUpvote (toggleUpvote op u) u).upvotedBy ↔ w ∈ op.upvotedBy) ∧
    ((toggleCommentUpvote (toggleCommentUpvote c v) v).upvotes = c.upvotes ∧
      ∀ w, w ∈ (toggleCommentUpvote (toggleCommentUpvote c v) v).upvotedBy ↔ w ∈ c.upvotedBy) := by
  refine ⟨⟨?_, ?_⟩, ⟨?_, ?_⟩⟩
  · by_cases h : u ∈ op.upvotedBy
    · have hne : u ∉ op.upvotedBy.erase u := by
        intro hmem
        exact absurd ((List.Nodup.mem_erase_iff hop).mp hmem).1 (by simp)
      simp [toggleUpvote, h, hne]
    · have hmem : u ∈ op.upvotedBy ++ [u] := by simp
      simp [toggleUpvote, h, hmem]
  · intro w
    by_cases h : u ∈ op.upvotedBy
    · have hne : u ∉ op.upvotedBy.erase u := by
        intro hmem
        exact absurd ((List.Nodup.mem_erase_iff hop).mp hmem).1 (by simp)
      simp only [toggleUpvote, if_pos h, if_neg hne, List.mem_append, List.mem_singleton]
      by_cases hw : w = u
      · subst hw
        simp [h]
      · simp [hw, List.mem_erase_of_ne hw]
    · have hmem : u ∈ op.upvotedBy ++ [u] := by simp
      simp [toggleUpvote, h, hmem, List.erase_append_right _ h]
  · by_cases h : v ∈ c.upvotedBy
    · have hne : v ∉ c.upvotedBy.erase v := by
        intro hmem
        exact absurd ((List.Nodup.mem_erase_iff hc).mp hmem).1 (by simp)
      simp [toggleCommentUpvote, h, hne]
    · have hmem : v ∈ c.upvotedBy ++ [v] := by simp
      simp [toggleCommentUpvote, h, hmem]
  · intro w
    by_cases h : v ∈ c.upvotedBy
    · have hne : v ∉ c.upvotedBy.erase v := by
        intro hmem
        exact absurd ((List.Nodup.mem_erase_iff hc).mp hmem).1 (by simp)
      simp only [toggleCommentUpvote, if_pos h, if_neg hne, List.mem_append, List.mem_singleton]
      by_cases hw : w = v
      · subst hw
        simp [h]
      · simp [hw, List.mem_erase_of_ne hw]
    · have hmem : v ∈ c.upvotedBy ++ [v] := by simp
      simp [toggleCommentUpvote, h, hmem, List.erase_append_right _ h]

/-- Witness for C4 at a concrete post and comment. -/
theorem toggle_twice_restores_witness :
    ((toggleUpvote (toggleUpvote opW "u2") "u2").upvotes = opW.upvotes ∧
      ∀ w, w ∈ (toggleUpvote (toggleUpvote opW "u2") "u2").upvotedBy ↔ w ∈ opW.upvotedBy) ∧
    ((toggleCommentUpvote (toggleCommentUpvote cW "u9") "u9").upvotes = cW.upvotes ∧
      ∀ w, w ∈ (toggleCommentUpvote (toggleCommentUpvote cW "u9") "u9").upvotedBy ↔ w ∈ cW.upvotedBy) :=
  toggle_twice_restores opW cW "u2" "u9" (by decide) (by decide)

theorem find?_map_update {α : Type} (p : α → Bool) (x' : α) (hp : p x' = true)
    (l : List α) :
    (l.map (fun x => if p x then x' else x)).find? p = (l.find? p).map (fun _ => x') := by
  induction l with
  | nil => simp
  | cons a l ih =>
    by_cases h : p a
    · simp only [List.map_cons, if_pos h]
      rw [List.find?_cons_of_pos _ hp, List.find?_cons_of_pos _ h]
      simp
    · simp only [List.map_cons, if_neg h]
      rw [List.find?_cons_of_neg _ (by simpa using h), List.find?_cons_of_neg _ h, ih]

/-- C6: addComment on a locked thread fails with 403 for any acting
user (no role check happens before the lock check), and the state —
in particular the content document's comment sequence — is unchanged. -/
theorem addComment_locked_forbidden (db : DB) (threadId : Nat) (u : ReqUser)
    (content : String) (pid : Option Nat) (now : Nat) (fault : Bool) (row : ThreadRow)
    (hrow : db.threads.find? (fun t => t.id == threadId) = some row)
    (hlocked : row.isLocked = true) :
    createComment db threadId u content pid now fault =
      (db, .error (.appError "Thread is locked. No new replies allowed." 403)) := by
  unfold createComment
  rw [hrow]
  simp [hlocked]

/-- Witness for C6: a moderator hits the same 403 on a locked thread. -/
theorem addComment_locked_forbidden_witness :
    createComment dbLocked 1 modW "hi" none 5 false =
      (dbLocked, .error (.appError "Thread is locked. No new replies allowed." 403)) :=
  addComment_locked_forbidden dbLocked 1 modW "hi" none 5 false rowLocked
    (by decide) (by decide)

/-- C1: when the metadata insert succeeded but the content-document
write fails, createThread rolls the pg transaction back, best-effort
deletes any content document for the new id, and propagates the store
error: afterwards neither the metadata row nor the content document
exists for the new thread id. -/
theorem createThread_contentFail_no_orphans (db : DB) (u : ReqUser)
    (title content : String) (categoryId : Nat) (tags : List String)
    (newThreadId : Nat) (suffix : String) (cat : CategoryRow)
    (hcat : db.categories.find? (fun c => c.id == categoryId && c.status == "active") =
      some cat)
    (hfresh : ∀ t ∈ db.threads, t.id ≠ newThreadId) :
    createThread db u title content categoryId tags newThreadId suffix true =
      ({ db with posts := db.posts.filter (fun p => !(p.threadId == newThreadId)) },
        .error (.storeError "MongoDB write failed")) ∧
    (∀ t ∈ (createThread db u title content categoryId tags newThreadId suffix true).1.threads,
      t.id ≠ newThreadId) ∧
    (∀ p ∈ (createThread db u title content categoryId tags newThreadId suffix true).1.posts,
      p.threadId ≠ newThreadId) := by
  have hres : createThread db u title content categoryId tags newThreadId suffix true =
      ({ db with posts := db.posts.filter (fun p => !(p.threadId == newThreadId)) },
        .error (.storeError "MongoDB write failed")) := by
    unfold createThread
    rw [hcat]
    simp
  refine ⟨hres, ?_, ?_⟩
  · rw [hres]
    exact hfresh
  · rw [hres]
    intro p hp
    have := (List.mem_filter.mp hp).2
    simpa using this

/-- Witness for C1: induced MongoDB failure on a store holding one
unrelated thread leaves no artifact for the new id 2. -/
theorem createThread_contentFail_no_orphans_witness :
    createThread dbFresh userW "Hello" "body text here" 1 [] 2 "ab12" true =
      ({ dbFresh with posts := dbFresh.posts.filter (fun p => !(p.threadId == 2)) },
        .error (.storeError "MongoDB write failed")) ∧
    (∀ t ∈ (createThread dbFresh userW "Hello" "body text here" 1 [] 2 "ab12" true).1.threads,
      t.id ≠ 2) ∧
    (∀ p ∈ (createThread dbFresh userW "Hello" "body text here" 1 [] 2 "ab12" true).1.posts,
      p.threadId ≠ 2) :=
  createThread_contentFail_no_orphans dbFresh userW "Hello" "body text here" 1 [] 2 "ab12"
    ⟨1, "active"⟩ (by decide) (by decide)

/-- C10: when the metadata row exists, the caller is authorized, and no
content document exists for the thread id, updateThread still returns
success with a null post, and a requested title change is applied to
every matching metadata row. -/
theorem updateThread_missing_doc_succeeds (db : DB) (id : Nat) (u : ReqUser)
    (title content : Option String) (tags : Option (List String)) (now : Nat)
    (thread : ThreadRow)
    (hrow : db.threads.find? (fun t => t.id == id) = some thread)
    (hauth : ((thread.authorId == u.id) || isModRole u) = true)
    (hnodoc : db.posts.find? (fun p => p.threadId == id) = none) :
    (updateThread db id u title content tags now).2 =
      .ok ({ thread with
        title := if truthy title then title.getD thread.title else thread.title }, none) ∧
    (truthy title = true →
      ∀ t ∈ (updateThread db id u title content tags now).1.threads,
        t.id = id → some t.title = title) := by
  have hcond : (!(thread.authorId == u.id) && !(isModRole u)) = false := by
    rcases Bool.or_eq_true_iff.mp hauth with h | h <;> simp [h]
  by_cases ht : truthy title
  · obtain ⟨v, hv⟩ : ∃ v, title = some v := by
      cases title with
      | none => simp [truthy] at ht
      | some v => exact ⟨v, rfl⟩
    have hres : updateThread db id u title content tags now =
        ({ db with threads := db.threads.map (fun t =>
            if t.id == id then { t with title := title.getD t.title } else t) },
          .ok ({ thread with title := title.getD thread.title }, none)) := by
      unfold updateThread
      rw [hrow]
      simp only [hcond, Bool.false_eq_true, if_false, if_pos ht, hnodoc]
    rw [hres]
    refine ⟨by simp [ht], ?_⟩
    intro _ t htmem htid
    rcases List.mem_map.mp htmem with ⟨t0, _, rfl⟩
    by_cases h0 : t0.id == id
    · simp only [if_pos h0, hv, Option.getD_some]
    · exfalso
      rw [if_neg h0] at htid
      exact absurd (by simpa using htid) (by simpa using h0)
  · have ht' : truthy title = false := by simpa using ht
    have hres : updateThread db id u title content tags now =
        (db, .ok ({ thread with title := thread.title }, none)) := by
      unfold updateThread
      rw [hrow]
      simp [hcond, ht', hnodoc]
    rw [hres]
    exact ⟨by simp [ht'], fun hcontra => absurd hcontra (by simp [ht'])⟩

/-- Witness for C10: the thread's author retitles a thread whose content
document is missing; the call succeeds with a null post. -/
theorem updateThread_missing_doc_succeeds_witness :
    (updateThread dbNoDoc 1 userW (some "New title") none none 9).2 =
      .ok ({ rowW with
        title := if truthy (some "New title") then (some "New title").getD rowW.title
          else rowW.title }, none) ∧
    (truthy (some "New title") = true →
      ∀ t ∈ (updateThread dbNoDoc 1 userW (some "New title") none none 9).1.threads,
        t.id = 1 → some t.title = some "New title") :=
  updateThread_missing_doc_succeeds dbNoDoc 1 userW (some "New title") none none 9 rowW
    (by decide) (by decide) (by decide)

/-- C8 (amended): when the comment write succeeds but the reply-count
UPDATE fails, createComment propagates the raw store error to the
caller — the same error shape as any full failure, with no dedicated
partial-success marker — while the already-pushed comment stays written
and the metadata row keeps its stale counters. -/
theorem createComment_counterFail_drift (db : DB) (threadId : Nat) (u : ReqUser)
    (content : String) (now : Nat) (row : ThreadRow) (post : Post)
    (hrow : db.threads.find? (fun t => t.id == threadId) = some row)
    (hunlocked : row.isLocked = false)
    (hpost : db.posts.find? (fun p => p.threadId == threadId) = some post) :
    createComment db threadId u content none now true =
      ({ db with posts := db.posts.map (fun p =>
          if p.threadId == threadId then
            { post with comments := post.comments ++ [mkNewComment post u content none] }
          else p) },
        .error (.storeError "reply_count update failed")) := by
  unfold createComment
  rw [hrow]
  simp only [hunlocked, Bool.false_eq_true, if_false, Bool.not_true, hpost]
  simp

/-- Counterexample for C8 as stated: with an induced counter-update
failure the call returns a bare store error — there is no partial
"succeeded with counter drift" outcome distinguishable from a full
failure — even though the comment was persisted (document now holds one
comment) and the metadata row still shows replyCount = 0. -/
theorem createComment_counterDrift_counterexample :
    (createComment dbW 1 userW "hi" none 5 true).2 =
      .error (.storeError "reply_count update failed") ∧
    ((createComment dbW 1 userW "hi" none 5 true).1.posts.map
      (fun p => p.comments.length)) = [1] ∧
    ((createComment dbW 1 userW "hi" none 5 true).1.threads.map
      (fun t => t.replyCount)) = [0] :=
  ⟨rfl, rfl, rfl⟩

/-- Witness for the amended C8 at the concrete one-thread store. -/
theorem createComment_counterFail_drift_witness :
    createComment dbW 1 userW "hi" none 5 true =
      ({ dbW with posts := dbW.posts.map (fun p =>
          if p.threadId == 1 then
            { postW with comments := postW.comments ++ [mkNewComment postW userW "hi" none] }
          else p) },
        .error (.storeError "reply_count update failed")) :=
  createComment_counterFail_drift dbW 1 userW "hi" 5 rowW postW
    (by decide) (by decide) (by decide)

/-- C7: with a parentCommentId, createComment fails with 404 exactly
when no comment with that id exists in the thread's content document;
a tombstoned parent still counts as existing, so the comment insert
succeeds (isDeleted is never consulted by the parent query). -/
theorem addComment_parent_existence (db : DB) (threadId pid : Nat) (u : ReqUser)
    (content : String) (now : Nat) (fault : Bool) (row : ThreadRow)
    (hrow : db.threads.find? (fun t => t.id == threadId) = some row)
    (hunlocked : row.isLocked = false) :
    (db.posts.find? (fun p =>
        p.threadId == threadId && p.comments.any (fun c => c.cid == pid)) = none →
      createComment db threadId u content (some pid) now fault =
        (db, .error (.appError "Parent comment not found." 404))) ∧
    (∀ post, db.posts.find? (fun p => p.threadId == threadId) = some post →
      (∃ c ∈ post.comments, c.cid = pid) →
      (createComment db threadId u content (some pid) now false).2 =
        .ok (mkNewComment post u content (some pid))) := by
  constructor
  · intro hnone
    unfold createComment
    rw [hrow]
    simp [hunlocked, hnone]
  · intro post hpost ⟨c, hc, hcid⟩
    have hany : post.comments.any (fun c => c.cid == pid) = true :=
      List.any_eq_true.mpr ⟨c, hc, by simp [hcid]⟩
    have hsome : (db.posts.find? (fun p =>
        p.threadId == threadId && p.comments.any (fun c => c.cid == pid))).isSome := by
      rw [List.find?_isSome]
      refine ⟨post, List.mem_of_find?_eq_some hpost, ?_⟩
      have := List.find?_some hpost
      simp only [Bool.and_eq_true]
      exact ⟨this, hany⟩
    unfold createComment
    rw [hrow]
    simp only [hunlocked, Bool.false_eq_true, if_false, hsome, Bool.not_true, hpost]

/-- Witness for C7: replying under a tombstoned parent succeeds, and a
dangling parent id is rejected with 404. -/
theorem addComment_parent_existence_witness :
    (dbTomb.posts.find? (fun p =>
        p.threadId == 1 && p.comments.any (fun c => c.cid == 99)) = none →
      createComment dbTomb 1 userW "re" (some 99) 5 false =
        (dbTomb, .error (.appError "Parent comment not found." 404))) ∧
    (∀ post, dbTomb.posts.find? (fun p => p.threadId == 1) = some post →
      (∃ c ∈ post.comments, c.cid = 0) →
      (createComment dbTomb 1 userW "re" (some 0) 5 false).2 =
        .ok (mkNewComment post userW "re" (some 0))) := by
  have h99 := addComment_parent_existence dbTomb 1 99 userW "re" 5 false rowW
    (by decide) (by decide)
  have h0 := addComment_parent_existence dbTomb 1 0 userW "re" 5 false rowW
    (by decide) (by decide)
  exact ⟨h99.1, h0.2⟩

theorem updateComment_tombstoned_404 (db : DB) (threadId commentId : Nat)
    (u : ReqUser) (content : String) (now : Nat) (post : Post) (c : Comment)
    (hpost : db.posts.find? (fun p => p.threadId == threadId) = some post)
    (hfc : findCommentById post commentId = some c) (hd : c.isDeleted = true) :
    updateComment db threadId commentId u content now =
      (db, .error (.appError "Comment not found." 404)) := by
  unfold updateComment
  simp only [hpost, hfc, hd]
  simp

theorem deleteComment_tombstoned_404 (db : DB) (threadId commentId : Nat)
    (u : ReqUser) (now : Nat) (post : Post) (c : Comment)
    (hpost : db.posts.find? (fun p => p.threadId == threadId) = some post)
    (hfc : findCommentById post commentId = some c) (hd : c.isDeleted = true) :
    deleteComment db threadId commentId u now =
      (db, .error (.appError "Comment not found." 404)) := by
  unfold deleteComment
  simp only [hpost, hfc, hd]
  simp

/-- C5: once deleteComment succeeds, the comment's body is the fixed
placeholder and it is tombstoned but still addressable, and every
subsequent updateComment or deleteComment on the same comment id fails
with 404 without touching the state. -/
theorem tombstone_terminal (db : DB) (threadId commentId : Nat) (u u2 u3 : ReqUser)
    (now now2 now3 : Nat) (content2 : String) (post : Post) (comment : Comment)
    (hpost : db.posts.find? (fun p => p.threadId == threadId) = some post)
    (hfc : findCommentById post commentId = some comment)
    (hnd : comment.isDeleted = false)
    (hperm : ((comment.authorId == u.id) || isModRole u) = true) :
    (deleteComment db threadId commentId u now).2 = .ok () ∧
    (∃ post' c',
      (deleteComment db threadId commentId u now).1.posts.find?
        (fun p => p.threadId == threadId) = some post' ∧
      findCommentById post' commentId = some c' ∧
      c'.content = "[deleted]" ∧ c'.isDeleted = true) ∧
    updateComment (deleteComment db threadId commentId u now).1 threadId commentId
        u2 content2 now2 =
      ((deleteComment db threadId commentId u now).1,
        .error (.appError "Comment not found." 404)) ∧
    deleteComment (deleteComment db threadId commentId u now).1 threadId commentId
        u3 now3 =
      ((deleteComment db threadId commentId u now).1,
        .error (.appError "Comment not found." 404)) := by
  have hcond : (!(comment.authorId == u.id) && !(isModRole u)) = false := by
    rcases Bool.or_eq_true_iff.mp hperm with h | h <;> simp [h]
  have hpt : (post.threadId == threadId) = true := by
    have := List.find?_some hpost
    simpa using this
  have hcid : (comment.cid == commentId) = true := by
    have := List.find?_some hfc
    simpa [findCommentById] using this
  have hr : deleteComment db threadId commentId u now =
      ({ db with
        posts := db.posts.map (fun p => if p.threadId == threadId then
          tombstonedPost post commentId comment now else p)
        threads := db.threads.map (fun t =>
          if t.id == threadId then { t with replyCount := t.replyCount - 1 } else t) },
        .ok ()) := by
    unfold deleteComment
    simp only [hpost, hfc]
    simp [hnd, hcond, tombstonedPost, tombstone]
  have hfind' : (deleteComment db threadId commentId u now).1.posts.find?
      (fun p => p.threadId == threadId) = some (tombstonedPost post commentId comment now) := by
    have hmu := find?_map_update (fun p : Post => p.threadId == threadId)
      (tombstonedPost post commentId comment now)
      (by simpa [tombstonedPost, tombstone] using hpt) db.posts
    rw [hr]
    simpa [hpost] using hmu
  have hfc' : findCommentById (tombstonedPost post commentId comment now) commentId =
      some (tombstone comment now) := by
    unfold findCommentById tombstonedPost
    have hmu := find?_map_update (fun c : Comment => c.cid == commentId)
      (tombstone comment now) (by simpa [tombstone] using hcid) post.comments
    rw [hmu, show post.comments.find? (fun c => c.cid == commentId) = some comment from hfc]
    rfl
  refine ⟨by rw [hr], ⟨_, _, hfind', hfc', by simp [tombstone], by simp [tombstone]⟩, ?_, ?_⟩
  · exact updateComment_tombstoned_404 _ threadId commentId u2 content2 now2 _ _
      hfind' hfc' (by simp [tombstone])
  · exact deleteComment_tombstoned_404 _ threadId commentId u3 now3 _ _
      hfind' hfc' (by simp [tombstone])

/-- Witness for C5 on a one-comment document: the author deletes it,
then further edit/delete attempts by a moderator hit 404. -/
theorem tombstone_terminal_witness :
    (deleteComment dbLive 1 0 userW 7).2 = .ok () ∧
    (∃ post' c',
      (deleteComment dbLive 1 0 userW 7).1.posts.find?
        (fun p => p.threadId == 1) = some post' ∧
      findCommentById post' 0 = some c' ∧
      c'.content = "[deleted]" ∧ c'.isDeleted = true) ∧
    updateComment (deleteComment dbLive 1 0 userW 7).1 1 0 modW "edited" 9 =
      ((deleteComment dbLive 1 0 userW 7).1,
        .error (.appError "Comment not found." 404)) ∧
    deleteComment (deleteComment dbLive 1 0 userW 7).1 1 0 modW 9 =
      ((deleteComment dbLive 1 0 userW 7).1,
        .error (.appError "Comment not found." 404)) :=
  tombstone_terminal dbLive 1 0 userW modW modW 7 9 9 "edited" postLive cLive
    (by decide) (by decide) (by decide) (by decide)

/-- C9 (amended): upvoteThread is findOne followed by an in-memory
toggle and a whole-document save; in the schedule where two requests by
distinct absent voters both read before either saves, the second save
overwrites the first, the final count is original + 1 instead of
original + 2, and the first voter's vote is lost. -/
theorem upvoteThread_interleaved_lost_update (db : DB) (tid : Nat) (post : Post)
    (a b : String) (hpost : findPostByThread db tid = some post)
    (ha : a ∉ post.originalPost.upvotedBy) (hb : b ∉ post.originalPost.upvotedBy)
    (hab : a ≠ b) :
    ∃ dbX, upvoteThreadInterleaved db tid a b = some dbX ∧
      findPostByThread dbX tid =
        some { post with originalPost := toggleUpvote post.originalPost b } ∧
      (toggleUpvote post.originalPost b).upvotes = post.originalPost.upvotes + 1 ∧
      a ∉ (toggleUpvote post.originalPost b).upvotedBy := by
  have hpt : (post.threadId == tid) = true := by
    have := List.find?_some hpost
    simpa [findPostByThread] using this
  refine ⟨saveToggledPost (saveToggledPost db tid post a) tid post b, ?_, ?_, ?_, ?_⟩
  · unfold upvoteThreadInterleaved
    rw [hpost]
  · unfold saveToggledPost findPostByThread
    have h1 := find?_map_update (fun p : Post => p.threadId == tid)
      { post with originalPost := toggleUpvote post.originalPost a }
      (by simpa using hpt) db.posts
    have h2 := find?_map_update (fun p : Post => p.threadId == tid)
      { post with originalPost := toggleUpvote post.originalPost b }
      (by simpa using hpt)
      (db.posts.map (fun p => if p.threadId == tid then
        { post with originalPost := toggleUpvote post.originalPost a } else p))
    simp only [h2, h1]
    rw [show db.posts.find? (fun p => p.threadId == tid) = some post from hpost]
    rfl
  · simp [toggleUpvote, hb]
  · simp [toggleUpvote, hb, ha, hab]

/-- Counterexample for C9 as stated: on the same one-post store,
running the two toggles back to back yields 2 upvotes, but the
read-both-then-save-both schedule the non-atomic findOne/save pair
admits yields 1 upvote with voter "va" absent — a lost update. -/
theorem upvote_atomicity_counterexample :
    ((upvoteThread (upvoteThread dbW 1 "va").1 1 "vb").1.posts.map
      (fun p => p.originalPost.upvotes)) = [2] ∧
    (upvoteThreadInterleaved dbW 1 "va" "vb").map (fun d =>
      d.posts.map (fun p => (p.originalPost.upvotes,
        p.originalPost.upvotedBy.contains "va"))) = some [(1, false)] :=
  ⟨rfl, rfl⟩

/-- Witness for the amended C9 at the concrete one-post store. -/
theorem upvoteThread_interleaved_lost_update_witness :
    ∃ dbX, upvoteThreadInterleaved dbW 1 "va" "vb" = some dbX ∧
      findPostByThread dbX 1 =
        some { postW with originalPost := toggleUpvote postW.originalPost "vb" } ∧
      (toggleUpvote postW.originalPost "vb").upvotes = postW.originalPost.upvotes + 1 ∧
      "va" ∉ (toggleUpvote postW.originalPost "vb").upvotedBy :=
  upvoteThread_interleaved_lost_update dbW 1 postW "va" "vb"
    (by decide) (by decide) (by decide) (by decide)

theorem createComment_singleton_ok (db db' : DB) (threadId : Nat) (u : ReqUser)
    (content : String) (pid : Option Nat) (now : Nat) (c : Comment)
    (row : ThreadRow) (post : Post)
    (ht : db.threads = [row]) (hp : db.posts = [post])
    (hid : row.id = threadId) (hpt : post.threadId = threadId)
    (hrun : createComment db threadId u content pid now false = (db', .ok c)) :
    row.isLocked = false ∧
    db'.threads = [{ row with
      replyCount := row.replyCount + 1
      lastReplyAt := some now
      lastReplyBy := some u.id }] ∧
    db'.posts = [{ post with comments := post.comments ++ [mkNewComment post u content pid] }] := by
  have h1 : db.threads.find? (fun t => t.id == threadId) = some row := by
    rw [ht]
    simp [hid]
  have h2 : db.posts.find? (fun p => p.threadId == threadId) = some post := by
    rw [hp]
    simp [hpt]
  unfold createComment at hrun
  simp only [h1, h2] at hrun
  split at hrun
  · exact absurd hrun (by simp)
  · split at hrun
    · exact absurd hrun (by simp)
    · split at hrun
      · exact absurd hrun (by simp)
      · next hlock _ _ =>
        have hdb := congrArg Prod.fst hrun
        simp only at hdb
        refine ⟨by simpa using hlock, ?_, ?_⟩
        · rw [← hdb, ht]
          simp [hid]
        · rw [← hdb, hp]
          simp [hpt]

theorem deleteComment_singleton_ok (db db' : DB) (threadId cid0 : Nat) (u : ReqUser)
    (now : Nat) (row : ThreadRow) (post : Post)
    (ht : db.threads = [row]) (hp : db.posts = [post])
    (hid : row.id = threadId) (hpt : post.threadId = threadId)
    (hrun : deleteComment db threadId cid0 u now = (db', .ok ())) :
    ∃ comment, findCommentById post cid0 = some comment ∧
      comment.isDeleted = false ∧
      db'.threads = [{ row with replyCount := row.replyCount - 1 }] ∧
      db'.posts = [tombstonedPost post cid0 comment now] := by
  have h2 : db.posts.find? (fun p => p.threadId == threadId) = some post := by
    rw [hp]
    simp [hpt]
  unfold deleteComment at hrun
  simp only [h2] at hrun
  split at hrun
  · exact absurd hrun (by simp)
  · next comment hfc =>
    split at hrun
    · exact absurd hrun (by simp)
    · split at hrun
      · exact absurd hrun (by simp)
      · next hdel _ =>
        have hdb := congrArg Prod.fst hrun
        simp only at hdb
        refine ⟨comment, hfc, by simpa using hdel, ?_, ?_⟩
        · rw [← hdb, ht]
          simp [hid]
        · rw [← hdb, hp]
          simp [hpt, tombstonedPost, tombstone]

theorem length_filter_tombstone (cid0 : Nat) (c' : Comment) (hdel : c'.isDeleted = true) :
    ∀ (l : List Comment) (comment : Comment),
      (l.map (fun c => c.cid)).Nodup →
      l.find? (fun c => c.cid == cid0) = some comment →
      comment.isDeleted = false →
      ((l.map (fun c => if c.cid == cid0 then c' else c)).filter
        (fun c => !c.isDeleted)).length =
        (l.filter (fun c => !c.isDeleted)).length - 1 := by
  intro l
  induction l with
  | nil =>
    intro comment _ hf _
    simp at hf
  | cons a l ih =>
    intro comment hnd hf hc
    have hnd' : (l.map (fun c => c.cid)).Nodup := (List.nodup_cons.mp (by simpa using hnd)).2
    by_cases ha : (a.cid == cid0) = true
    · have hfa : a = comment := by
        rw [List.find?_cons_of_pos (p := fun c : Comment => c.cid == cid0) _ ha] at hf
        exact Option.some.inj hf
      have hnomem : a.cid ∉ l.map (fun c => c.cid) :=
        (List.nodup_cons.mp (by simpa using hnd)).1
      have hmapid : l.map (fun c => if c.cid == cid0 then c' else c) = l := by
        have hall : ∀ b ∈ l, (if b.cid == cid0 then c' else b) = b := by
          intro b hb
          have hbne : (b.cid == cid0) = false := by
            rw [Bool.eq_false_iff]
            intro hbeq
            apply hnomem
            have hacid : a.cid = cid0 := by simpa using ha
            have hbcid : b.cid = cid0 := by simpa using hbeq
            rw [hacid, ← hbcid]
            exact List.mem_map_of_mem _ hb
          rw [hbne]
          simp
        calc l.map (fun c => if c.cid == cid0 then c' else c) = l.map id :=
              List.map_congr_left (by simpa using hall)
          _ = l := List.map_id l
      have hca : (!a.isDeleted) = true := by
        rw [← hfa] at hc
        simp [hc]
      rw [List.map_cons, if_pos ha, hmapid,
        List.filter_cons_of_neg (p := fun c : Comment => !c.isDeleted) (by simp [hdel]),
        List.filter_cons_of_pos (p := fun c : Comment => !c.isDeleted) hca]
      simp
    · have hf' : l.find? (fun c => c.cid == cid0) = some comment := by
        rw [List.find?_cons_of_neg (p := fun c : Comment => c.cid == cid0) _
          (by simpa using ha)] at hf
        exact hf
      have hrec := ih comment hnd' hf' hc
      have hone : 1 ≤ (l.filter (fun c => !c.isDeleted)).length := by
        have hmem : comment ∈ l := List.mem_of_find?_eq_some hf'
        have : comment ∈ l.filter (fun c => !c.isDeleted) :=
          List.mem_filter.mpr ⟨hmem, by simp [hc]⟩
        exact List.length_pos_of_mem this
      rw [List.map_cons, if_neg ha]
      by_cases hda : (!a.isDeleted) = true
      · rw [List.filter_cons_of_pos (p := fun c : Comment => !c.isDeleted) hda,
          List.filter_cons_of_pos (p := fun c : Comment => !c.isDeleted) hda]
        simp only [List.length_cons]
        omega
      · rw [List.filter_cons_of_neg (p := fun c : Comment => !c.isDeleted)
            (by simpa using hda),
          List.filter_cons_of_neg (p := fun c : Comment => !c.isDeleted)
            (by simpa using hda)]
        exact hrec

theorem CState_add (db db' : DB) (threadId : Nat) (u : ReqUser) (content : String)
    (pid : Option Nat) (now : Nat) (c : Comment) (n : Nat)
    (hS : CState db threadId n)
    (hrun : createComment db threadId u content pid now false = (db', .ok c)) :
    CState db' threadId (n + 1) := by
  obtain ⟨row, post, ht, hp, hid, hlock, hpt, hrc, hinv, hcc⟩ := hS
  obtain ⟨-, ht', hp'⟩ := createComment_singleton_ok db db' threadId u content pid now c
    row post ht hp hid hpt hrun
  refine ⟨_, _, ht', hp', by simpa using hid, by simpa using hlock, by simpa using hpt,
    by simpa using hrc, ?_, ?_⟩
  · simp only [List.map_append, hinv, List.length_append]
    simp [mkNewComment, List.range_succ]
  · simp only [commentCount, List.filter_append] at hcc ⊢
    rw [List.filter_cons_of_pos (by simp [mkNewComment])]
    simp only [List.length_append]
    simp [hcc]

theorem CState_del (db db' : DB) (threadId cid0 : Nat) (u : ReqUser) (now : Nat) (n : Nat)
    (hS : CState db threadId n)
    (hrun : deleteComment db threadId cid0 u now = (db', .ok ())) :
    1 ≤ n ∧ CState db' threadId (n - 1) := by
  obtain ⟨row, post, ht, hp, hid, hlock, hpt, hrc, hinv, hcc⟩ := hS
  obtain ⟨comment, hfc, hcnd, ht', hp'⟩ := deleteComment_singleton_ok db db' threadId cid0
    u now row post ht hp hid hpt hrun
  have hmem : comment ∈ post.comments := List.mem_of_find?_eq_some hfc
  have hone : 1 ≤ n := by
    rw [← hcc]
    have : comment ∈ post.comments.filter (fun c => !c.isDeleted) :=
      List.mem_filter.mpr ⟨hmem, by simp [hcnd]⟩
    exact List.length_pos_of_mem this
  have hndp : (post.comments.map (fun c => c.cid)).Nodup := by
    rw [hinv]
    exact List.nodup_range _
  refine ⟨hone, _, _, ht', hp', by simpa using hid, by simpa using hlock, ?_,
    by simp [hrc], ?_, ?_⟩
  · simpa [tombstonedPost] using hpt
  · simp only [tombstonedPost]
    have hcomp : ∀ a ∈ post.comments,
        ((fun c => c.cid) ∘
          (fun c => if c.cid == cid0 then tombstone comment now else c)) a = a.cid := by
      intro a hamem
      by_cases hax : (a.cid == cid0) = true
      · have h1 : comment.cid = cid0 := by
          have := List.find?_some hfc
          simpa [findCommentById] using this
        simp only [Function.comp_apply, hax, if_true, tombstone]
        rw [show a.cid = cid0 from by simpa using hax, h1]
      · have hax' : ¬(a.cid = cid0) := by simpa using hax
        simp [Function.comp_apply, hax, hax']
    rw [List.map_map, List.map_congr_left hcomp, List.length_map]
    exact hinv
  · simp only [commentCount, tombstonedPost]
    rw [length_filter_tombstone cid0 (tombstone comment now) (by simp [tombstone])
      post.comments comment hndp (by simpa [findCommentById] using hfc) hcnd]
    simp only [commentCount] at hcc
    omega

theorem runOps_append (threadId : Nat) (l1 l2 : List CommentOp) :
    ∀ db, runOps threadId db (l1 ++ l2) =
      (runOps threadId db l1).bind (fun db1 => runOps threadId db1 l2) := by
  induction l1 with
  | nil =>
    intro db
    simp [runOps]
  | cons op l1 ih =>
    intro db
    simp only [List.cons_append, runOps]
    cases applyOp threadId db op with
    | none => simp
    | some db1 => simpa using ih db1

theorem runOps_adds (threadId : Nat) :
    ∀ (ops : List CommentOp), (∀ op ∈ ops, op.isAdd = true) →
    ∀ db db' n, CState db threadId n → runOps threadId db ops = some db' →
      CState db' threadId (n + ops.length) := by
  intro ops
  induction ops with
  | nil =>
    intro _ db db' n hS h
    simp only [runOps] at h
    cases h
    simpa using hS
  | cons op ops ih =>
    intro hall db db' n hS h
    cases op with
    | del cid0 u now =>
      have := hall _ (List.mem_cons_self _ _)
      simp [CommentOp.isDel, CommentOp.isAdd] at this
    | add u content pid now =>
      simp only [runOps, applyOp] at h
      rcases hc : createComment db threadId u content pid now false with ⟨db1, r⟩
      rw [hc] at h
      cases r with
      | error e => simp at h
      | ok c =>
        simp only at h
        have hS1 := CState_add db db1 threadId u content pid now c n hS hc
        have hrest := ih (fun op hop => hall _ (List.mem_cons_of_mem _ hop)) db1 db'
          (n + 1) hS1 h
        have hlen : n + 1 + ops.length = n + (CommentOp.add u content pid now :: ops).length := by
          simp only [List.length_cons]
          omega
        rw [← hlen]
        exact hrest

theorem runOps_dels (threadId : Nat) :
    ∀ (ops : List CommentOp), (∀ op ∈ ops, op.isDel = true) →
    ∀ db db' n, CState db threadId n → runOps threadId db ops = some db' →
      ops.length ≤ n ∧ CState db' threadId (n - ops.length) := by
  intro ops
  induction ops with
  | nil =>
    intro _ db db' n hS h
    simp only [runOps] at h
    cases h
    simpa using hS
  | cons op ops ih =>
    intro hall db db' n hS h
    cases op with
    | add u content pid now =>
      have := hall _ (List.mem_cons_self _ _)
      simp [CommentOp.isDel, CommentOp.isAdd] at this
    | del cid0 u now =>
      simp only [runOps, applyOp] at h
      rcases hc : deleteComment db threadId cid0 u now with ⟨db1, r⟩
      rw [hc] at h
      cases r with
      | error e => simp at h
      | ok uu =>
        simp only at h
        obtain ⟨hone, hS1⟩ := CState_del db db1 threadId cid0 u now n hS (by
          cases uu
          exact hc)
        obtain ⟨hlen, hrest⟩ := ih (fun op hop => hall _ (List.mem_cons_of_mem _ hop))
          db1 db' (n - 1) hS1 h
        constructor
        · simp only [List.length_cons]
          omega
        · have hsub : n - (CommentOp.del cid0 u now :: ops).length = n - 1 - ops.length := by
            simp only [List.length_cons]
            omega
          rw [hsub]
          exact hrest

/-- C2: starting from a fresh single-thread state, N successful
addComments followed by M successful softDeleteComments leave
replyCount = N - M with M ≤ N, hence max(0, N - M) and never negative;
moreover each successful create increments replyCount by exactly 1 and
sets lastReplyAt/lastReplyBy, and each successful soft-delete decrements
replyCount by 1 floored at zero and leaves lastReplyAt/lastReplyBy
untouched. -/
theorem replyCount_add_del_discipline :
    (∀ (db db' : DB) (threadId : Nat) (adds dels : List CommentOp),
      (∀ op ∈ adds, op.isAdd = true) → (∀ op ∈ dels, op.isDel = true) →
      CState db threadId 0 →
      runOps threadId db (adds ++ dels) = some db' →
      dels.length ≤ adds.length ∧
      ∃ row', db'.threads = [row'] ∧
        row'.replyCount = adds.length - dels.length ∧
        (row'.replyCount : Int) = max 0 ((adds.length : Int) - (dels.length : Int))) ∧
    (∀ (db db' : DB) (threadId : Nat) (u : ReqUser) (content : String)
      (pid : Option Nat) (now : Nat) (c : Comment) (row : ThreadRow) (post : Post),
      db.threads = [row] → db.posts = [post] → row.id = threadId →
      post.threadId = threadId →
      createComment db threadId u content pid now false = (db', .ok c) →
      ∃ row', db'.threads = [row'] ∧ row'.replyCount = row.replyCount + 1 ∧
        row'.lastReplyAt = some now ∧ row'.lastReplyBy = some u.id) ∧
    (∀ (db db' : DB) (threadId cid0 : Nat) (u : ReqUser) (now : Nat)
      (row : ThreadRow) (post : Post),
      db.threads = [row] → db.posts = [post] → row.id = threadId →
      post.threadId = threadId →
      deleteComment db threadId cid0 u now = (db', .ok ()) →
      ∃ row', db'.threads = [row'] ∧ row'.replyCount = row.replyCount - 1 ∧
        row'.lastReplyAt = row.lastReplyAt ∧ row'.lastReplyBy = row.lastReplyBy) := by
  refine ⟨?_, ?_, ?_⟩
  · intro db db' threadId adds dels hadds hdels hS hrun
    rw [runOps_append] at hrun
    rcases hmid : runOps threadId db adds with _ | dbMid
    · rw [hmid] at hrun
      simp at hrun
    · rw [hmid] at hrun
      rw [Option.some_bind'] at hrun
      have hSmid := runOps_adds threadId adds hadds db dbMid 0 hS hmid
      simp only [Nat.zero_add] at hSmid
      obtain ⟨hlen, hSend⟩ := runOps_dels threadId dels hdels dbMid db' adds.length
        hSmid hrun
      obtain ⟨row', _, hts, -, -, -, -, hrc, -, -⟩ := hSend
      refine ⟨hlen, row', hts, hrc, ?_⟩
      rw [hrc]
      rw [max_eq_right (sub_nonneg.mpr (by exact_mod_cast hlen))]
      exact_mod_cast Int.ofNat_sub hlen
  · intro db db' threadId u content pid now c row post ht hp hid hpt hrun
    obtain ⟨-, ht', -⟩ := createComment_singleton_ok db db' threadId u content pid now c
      row post ht hp hid hpt hrun
    exact ⟨_, ht', rfl, rfl, rfl⟩
  · intro db db' threadId cid0 u now row post ht hp hid hpt hrun
    obtain ⟨comment, -, -, ht', -⟩ := deleteComment_singleton_ok db db' threadId cid0
      u now row post ht hp hid hpt hrun
    exact ⟨_, ht', rfl, rfl, rfl⟩

/-- Witness for C2: one successful add then one successful soft delete
on a fresh thread, ending with replyCount 0 = max(0, 1 - 1). -/
theorem replyCount_add_del_discipline_witness :
    (1 : Nat) ≤ 1 ∧
    ∃ row', ((runOps 1 dbW ([CommentOp.add userW "hi" none 5] ++
        [CommentOp.del 0 userW 7])).getD dbW).threads = [row'] ∧
      row'.replyCount = 1 - 1 ∧
      (row'.replyCount : Int) = max 0 ((1 : Int) - (1 : Int)) :=
  replyCount_add_del_discipline.1 dbW
    ((runOps 1 dbW ([CommentOp.add userW "hi" none 5] ++
      [CommentOp.del 0 userW 7])).getD dbW)
    1 [CommentOp.add userW "hi" none 5] [CommentOp.del 0 userW 7]
    (by decide) (by decide)
    ⟨rowW, postW, rfl, rfl, rfl, rfl, rfl, rfl, rfl, rfl⟩ (by rfl)

end DiscussionPortal

